import Mathlib

/-!
Verification of the tlc_hotspot_pack hotspot pipeline.

Shallow embedding of the scoring, normalization, selection and
frame-assembly code in src/build_hotspots.py and
src/tlc_hvfhs_hotspot_builder.py.  Real (float) arithmetic is embedded
as exact rationals; pandas/NumPy NaN (and SQL NULL means) are embedded
as the value none of Option Rat, with NaN-propagating arithmetic.
-/

namespace TLCHotspot

/-- Pandas value: a float that may be NaN/null.  none stands for NaN. -/
abbrev PVal := Option ℚ

/-- Python max(0.0, min(1.0, s)) for a non-NaN s, as used in
score_to_color_hex and score_to_rating_1_100. -/
def clamp01 (q : ℚ) : ℚ := max 0 (min 1 q)

/-- lerp from src/build_hotspots.py: a + (b - a) * t. -/
def lerp (a b t : ℚ) : ℚ := a + (b - a) * t

/-- Python int() conversion: truncation toward zero. -/
def pyInt (q : ℚ) : ℤ := if 0 ≤ q then ⌊q⌋ else ⌈q⌉

/-- Python round(): round half to even (banker's rounding).  Mathlib's
round rounds ties upward, so the tie case is overridden. -/
def pyRound (q : ℚ) : ℤ :=
  if q - ⌊q⌋ = 1 / 2 then (if 2 ∣ ⌊q⌋ then ⌊q⌋ else ⌊q⌋ + 1) else round q

/-- score_to_rating_1_100 from src/build_hotspots.py lines 89-91 (identical
in src/tlc_hvfhs_hotspot_builder.py lines 115-117):
int(round(1 + 99 * max(0.0, min(1.0, float(score01))))). -/
def score_to_rating_1_100 (score01 : ℚ) : ℤ := pyRound (1 + 99 * clamp01 score01)

/-- The sixteen lowercase hex digit characters. -/
def hexDigits : List Char := "0123456789abcdef".data

/-- Hex digit character for a value below 16. -/
def hexDigit (n : ℕ) : Char := hexDigits.getD n '0'

/-- Python format spec 02x applied to a channel value in [0, 255]:
two lowercase hex digits, zero padded. -/
def hex2 (n : ℕ) : String := String.mk [hexDigit (n / 16 % 16), hexDigit (n % 16)]

/-- score_to_color_hex from src/build_hotspots.py lines 73-86: red ->
yellow -> green piecewise-linear gradient, channels truncated by Python
int(), formatted as a lowercase zero-padded hash-rgb string. -/
def score_to_color_hex (score01 : ℚ) : String :=
  let s := clamp01 score01
  if s ≤ 1 / 2 then
    let t := s / (1 / 2)
    let r := pyInt (lerp 230 255 t)
    let g := pyInt (lerp 0 215 t)
    "#" ++ hex2 r.toNat ++ hex2 g.toNat ++ hex2 0
  else
    let t := (s - 1 / 2) / (1 / 2)
    let r := pyInt (lerp 255 0 t)
    let g := pyInt (lerp 215 176 t)
    let b := pyInt (lerp 0 80 t)
    "#" ++ hex2 r.toNat ++ hex2 g.toNat ++ hex2 b.toNat

/-- Modelled from the spec words of claim C9 for comparison with the
source: the same gradient with each channel rounded to the nearest
integer instead of truncated.  The counterexample input below is not a
tie, so any nearest-integer tie rule gives the same value there.  Used
only to compare against score_to_color_hex. -/
def score_to_color_hex_rounded (score01 : ℚ) : String :=
  let s := clamp01 score01
  if s ≤ 1 / 2 then
    let t := s / (1 / 2)
    let r := round (lerp 230 255 t)
    let g := round (lerp 0 215 t)
    "#" ++ hex2 r.toNat ++ hex2 g.toNat ++ hex2 0
  else
    let t := (s - 1 / 2) / (1 / 2)
    let r := round (lerp 255 0 t)
    let g := round (lerp 215 176 t)
    let b := round (lerp 0 80 t)
    "#" ++ hex2 r.toNat ++ hex2 g.toNat ++ hex2 b.toNat

/-- Decidable shape check for the regex hash-[0-9a-f]x6 of claim C9. -/
def isHexColorB (s : String) : Bool :=
  match s.data with
  | '#' :: rest => rest.length == 6 && rest.all fun c => decide (c ∈ hexDigits)
  | _ => false

/-! ## Min-max normalization and window scoring (add_window_scores) -/

/-- Null-skipping minimum step, as in pandas Series.min(skipna=True). -/
def omin : PVal → PVal → PVal
  | none, b => b
  | some x, none => some x
  | some x, some y => some (min x y)

/-- Null-skipping maximum step, as in pandas Series.max(skipna=True). -/
def omax : PVal → PVal → PVal
  | none, b => b
  | some x, none => some x
  | some x, some y => some (max x y)

/-- pandas s.min(skipna=True): none when every value is null. -/
def listMin (l : List PVal) : PVal := l.foldr omin none

/-- pandas s.max(skipna=True): none when every value is null. -/
def listMax (l : List PVal) : PVal := l.foldr omax none

/-- minmax from add_window_scores (src/build_hotspots.py lines 170-176):
if min or max is NaN, or max == min, every value becomes 0.0; otherwise
each value is mapped to (x - min) / (max - min), NaN entries staying NaN. -/
def minmax (l : List PVal) : List PVal :=
  match listMin l, listMax l with
  | some mn, some mx =>
      if mx = mn then l.map fun _ => some 0
      else l.map fun v => v.map fun x => (x - mn) / (mx - mn)
  | _, _ => l.map fun _ => some 0

/-- NaN-propagating multiplication by a constant (float semantics). -/
def pMul (c : ℚ) : PVal → PVal
  | some x => some (c * x)
  | none => none

/-- NaN-propagating addition (float semantics). -/
def pAdd : PVal → PVal → PVal
  | some x, some y => some (x + y)
  | _, _ => none

/-- score_to_rating_1_100 applied to a possibly-NaN score01, as done by
df.apply.  For NaN, Python's two-argument min(1.0, x) keeps 1.0 because
the comparison x < 1.0 is false, and max(0.0, 1.0) = 1.0, so a NaN
score01 is clamped to 1 before rating. -/
def score_to_rating_nan : PVal → ℤ
  | some q => score_to_rating_1_100 q
  | none => score_to_rating_1_100 1

/-- score_to_color_hex applied to a possibly-NaN score01; NaN clamps to
1 exactly as in score_to_rating_nan. -/
def score_to_color_nan : PVal → String
  | some q => score_to_color_hex q
  | none => score_to_color_hex 1

/-- One row of df_win restricted to a single (dow_m, bin_start_min)
window group: zone id, pickup count (COUNT(*), never null) and the
possibly-null mean pay and tips. -/
structure WinRow where
  zid : ℤ
  pickups : ℚ
  avg_driver_pay : PVal
  avg_tips : PVal
deriving DecidableEq

/-- One row of the output of add_window_scores for that window group. -/
structure ScoredRow where
  zid : ℤ
  pickups : ℚ
  avg_driver_pay : PVal
  avg_tips : PVal
  vol_n : PVal
  pay_n : PVal
  tip_n : PVal
  score01 : PVal
  rating : ℤ
  fillColor : String
deriving DecidableEq

/-- Placeholder row used as the (never reached) getD default. -/
def winRow0 : WinRow := { zid := 0, pickups := 0, avg_driver_pay := none, avg_tips := none }

/-- add_window_scores from src/build_hotspots.py lines 167-186, restricted
to the rows of one (dow_m, bin_start_min) group: the three groupby
transforms apply minmax to each metric within exactly this group, then
score01 = 0.60 * vol_n + 0.30 * pay_n + 0.10 * tip_n and the rating and
fill color are derived per row. -/
def add_window_scores (rows : List WinRow) : List ScoredRow :=
  let vol := minmax (rows.map fun r => some r.pickups)
  let pay := minmax (rows.map fun r => r.avg_driver_pay)
  let tip := minmax (rows.map fun r => r.avg_tips)
  (List.range rows.length).map fun i =>
    let r := rows.getD i winRow0
    let v := vol.getD i none
    let p := pay.getD i none
    let t := tip.getD i none
    let s := pAdd (pAdd (pMul (6 / 10) v) (pMul (3 / 10) p)) (pMul (1 / 10) t)
    { zid := r.zid, pickups := r.pickups, avg_driver_pay := r.avg_driver_pay,
      avg_tips := r.avg_tips, vol_n := v, pay_n := p, tip_n := t,
      score01 := s, rating := score_to_rating_nan s, fillColor := score_to_color_nan s }

/-! ## Per-window ranking and top/bottom selection -/

/-- The strict comparison used by pandas rank: sj before si when
ascending and sj < si, or descending and si < sj. -/
def cmpLtB (asc : Bool) (sj si : ℚ) : Bool :=
  if asc then decide (sj < si) else decide (si < sj)

/-- Does index j strictly precede index i in the stable sort by score?
pandas rank(method=first): a strictly better score, or an equal score
seen earlier, precedes.  False when either entry is NaN (NaN rows are
excluded from ranking and receive a NaN rank). -/
def precFirstB (asc : Bool) (s : List PVal) (j i : ℕ) : Bool :=
  match s.getD j none, s.getD i none with
  | some sj, some si => cmpLtB asc sj si || (decide (sj = si) && decide (j < i))
  | _, _ => false

/-- Number of indices preceding i in the stable sort. -/
def rankCount (asc : Bool) (s : List PVal) (i : ℕ) : ℕ :=
  ((Finset.range s.length).filter fun j => precFirstB asc s j i = true).card

/-- pandas Series.rank(method=first): 1 + number of predecessors in the
stable sort; NaN scores get a NaN rank. -/
def rankFirst (asc : Bool) (s : List PVal) (i : ℕ) : Option ℕ :=
  if (s.getD i none).isSome then some (1 + rankCount asc s i) else none

/-- rank_good column (src/build_hotspots.py line 269): pandas rank with
method=first, ascending=False. -/
def rank_good (s : List PVal) (i : ℕ) : Option ℕ := rankFirst false s i

/-- rank_bad column (src/build_hotspots.py line 270): pandas rank with
method=first, ascending=True. -/
def rank_bad (s : List PVal) (i : ℕ) : Option ℕ := rankFirst true s i

/-- Comparison rank <= cutoff; a NaN rank compares false in pandas. -/
def rankLe : Option ℕ → ℕ → Bool
  | some r, k => r ≤ k
  | none, _ => false

/-- The df_poly row filter (src/build_hotspots.py line 271):
keep a row iff rank_good <= win_good_n or rank_bad <= win_bad_n. -/
def keepRow (s : List PVal) (G B : ℕ) (i : ℕ) : Bool :=
  rankLe (rank_good s i) G || rankLe (rank_bad s i) B

/-- Set of row indices of one window retained in df_poly. -/
def keptSet (s : List PVal) (G B : ℕ) : Finset ℕ :=
  (Finset.range s.length).filter fun i => keepRow s G B i = true

/-- List of row indices of one window retained in df_poly, in original
(first-seen) order, as the pandas boolean filter preserves order. -/
def keptIdx (s : List PVal) (G B : ℕ) : List ℕ :=
  (List.range s.length).filter fun i => keepRow s G B i

/-! ## Frame assembly (build_hotspots_json, lines 293-365) -/

/-- External geometry providers as seen by the frame loop: whether
zones_by_id has a non-null, non-empty geometry for a zone, and whether
centroid_by_id has a non-empty centroid point for it. -/
structure GeoEnv where
  hasPolygon : ℤ → Bool
  hasCentroid : ℤ → Bool

/-- A polygon display record appended to features (geometry, popup and
the remaining style constants are omitted; they are opaque to every
claim). -/
structure Feature where
  zid : ℤ
  tag : String
  pickups : ℚ
  rating : ℤ
  fillColor : String
  border : String
deriving DecidableEq

/-- A marker record appended to markers. -/
structure Marker where
  zid : ℤ
  tag : String
  pickups : ℚ
  rating : ℤ
  color : String
deriving DecidableEq

/-- One frame: the polygon feature list and the marker list. -/
structure Frame where
  features : List Feature
  markers : List Marker
deriving DecidableEq

/-- The marker built for a df_poly row in build_hotspots_json lines
349-362: tag GOOD when the window tag is TOP, else BAD. -/
def mkMarker (r : ScoredRow) (rg : Option ℕ) (G : ℕ) : Marker :=
  { zid := r.zid, tag := if rankLe rg G then "GOOD" else "BAD",
    pickups := r.pickups, rating := r.rating, color := r.fillColor }

/-- The frame loop of build_hotspots_json lines 293-365 over the rows of
one window group of df_poly (each row paired with its rank_good): a row
with no usable geometry is skipped; otherwise its feature is appended,
with tag TOP iff rank_good <= win_good_n, and a marker is appended
afterwards only when its centroid exists and is non-empty. -/
def buildFrameLoop (env : GeoEnv) (G : ℕ) : List (ScoredRow × Option ℕ) → Frame
  | [] => { features := [], markers := [] }
  | (r, rg) :: rest =>
    let F := buildFrameLoop env G rest
    if env.hasPolygon r.zid then
      let tag := if rankLe rg G then "TOP" else "BOTTOM"
      let border := if rankLe rg G then "#00b050" else "#e60000"
      let feat : Feature :=
        { zid := r.zid, tag := tag, pickups := r.pickups, rating := r.rating,
          fillColor := r.fillColor, border := border }
      if env.hasCentroid r.zid then
        { features := feat :: F.features, markers := mkMarker r rg G :: F.markers }
      else
        { features := feat :: F.features, markers := F.markers }
    else F

/-- Placeholder scored row used as the (never reached) getD default. -/
def scoredRow0 : ScoredRow :=
  { zid := 0, pickups := 0, avg_driver_pay := none, avg_tips := none,
    vol_n := none, pay_n := none, tip_n := none, score01 := none,
    rating := 0, fillColor := "" }

/-- score01 column of one window group of df_scored. -/
def scoresOf (rows : List ScoredRow) : List PVal := rows.map fun r => r.score01

/-- One window group of df_poly: the rows retained by the per-window
top/bottom selection, each paired with its rank_good value. -/
def dfPolyRows (rows : List ScoredRow) (G B : ℕ) : List (ScoredRow × Option ℕ) :=
  (keptIdx (scoresOf rows) G B).map fun i =>
    (rows.getD i scoredRow0, rank_good (scoresOf rows) i)

/-- The frame emitted by build_hotspots_json for one window, given the
scored rows of that window (already restricted to shown_ids). -/
def buildFrame (env : GeoEnv) (rows : List ScoredRow) (G B : ℕ) : Frame :=
  buildFrameLoop env G (dfPolyRows rows G B)

/-- The static marker loop of src/tlc_hvfhs_hotspot_builder.py main,
lines 419-461: one marker per zone of shown_ids whose centroid exists
and is non-empty, tagged GOOD iff the zone is in the overall good_set.
Only the zone id and tag are modelled; the popup statistics are opaque
to every claim. -/
def staticMarkers (env : GeoEnv) (shown_ids : List ℤ) (good_set : List ℤ) : List (ℤ × String) :=
  shown_ids.foldr
    (fun zid acc =>
      if env.hasCentroid zid then
        (zid, if zid ∈ good_set then "GOOD" else "BAD") :: acc
      else acc)
    []

/-! ## Temporal binning (build_metrics) and bin width coercion -/

/-- Bin-start-minute from the SQL of build_metrics (src/build_hotspots.py
line 138): FLOOR((hour * 60 + minute) / bin_minutes) * bin_minutes; for
non-negative operands DuckDB FLOOR of the real quotient is natural
division. -/
def binStartMin (bin_minutes hour minute : ℕ) : ℕ :=
  ((hour * 60 + minute) / bin_minutes) * bin_minutes

/-- Bin width coercion in src/tlc_hvfhs_hotspot_builder.py main line 278
(and src/tlc_hotspot_pack/tlc_hvfhs_hotspot_builder.py line 282):
bin_minutes = max(1, int(args.bin_minutes)).  build_hotspots_json applies
no coercion at all. -/
def coerce_bin_minutes (b : ℤ) : ℤ := max 1 b

/-- The bin key of the package copy,
src/tlc_hotspot_pack/tlc_hvfhs_hotspot_builder.py main lines 288-290:
the SQL there groups at exact (hour, minute) and main rolls up with
minute_bin = (minute // bin_minutes) * bin_minutes and
minute_of_day = hour * 60 + minute_bin — the hour part is NOT binned,
unlike the FLOOR((hour*60 + minute)/bin)*bin formula of the other two
builders. -/
def minute_of_day (bin_minutes hour minute : ℕ) : ℕ :=
  hour * 60 + (minute / bin_minutes) * bin_minutes

/-! ## Concrete test inputs used by counterexamples and witnesses -/

/-- Geometry environment in which every zone has a polygon and a
centroid. -/
def envAll : GeoEnv := { hasPolygon := fun _ => true, hasCentroid := fun _ => true }

/-- Three scored rows of one window (all three in shown_ids), with
distinct score01 values 3, 2, 1. -/
def c1Rows : List ScoredRow :=
  [{ zid := 1, pickups := 0, avg_driver_pay := none, avg_tips := none,
     vol_n := none, pay_n := none, tip_n := none, score01 := some 3,
     rating := 0, fillColor := "" },
   { zid := 2, pickups := 0, avg_driver_pay := none, avg_tips := none,
     vol_n := none, pay_n := none, tip_n := none, score01 := some 2,
     rating := 0, fillColor := "" },
   { zid := 3, pickups := 0, avg_driver_pay := none, avg_tips := none,
     vol_n := none, pay_n := none, tip_n := none, score01 := some 1,
     rating := 0, fillColor := "" }]

/-- One window with mixed null and differing non-null pay means:
pay values 1.0, 2.0 and NULL; tips all NULL. -/
def c4Rows : List WinRow :=
  [{ zid := 1, pickups := 10, avg_driver_pay := some 1, avg_tips := none },
   { zid := 2, pickups := 20, avg_driver_pay := some 2, avg_tips := none },
   { zid := 3, pickups := 30, avg_driver_pay := none, avg_tips := none }]

/-- The window of the spec's concrete scenario: three zones with pickup
counts 10, 20, 30 and no valid pay or tip observations. -/
def c8Rows : List WinRow :=
  [{ zid := 1, pickups := 10, avg_driver_pay := none, avg_tips := none },
   { zid := 2, pickups := 20, avg_driver_pay := none, avg_tips := none },
   { zid := 3, pickups := 30, avg_driver_pay := none, avg_tips := none }]

/-! ## Sanity examples (concrete evaluations of the embedding) -/

example : score_to_rating_1_100 (3 / 10) = 31 := by
  norm_num [score_to_rating_1_100, pyRound, clamp01, round_eq]

example : score_to_color_hex 0 = "#e60000" := by
  norm_num [score_to_color_hex, clamp01, lerp, pyInt, hex2, hexDigit, hexDigits]; decide

example : score_to_color_hex (27 / 200) = "#ec3a00" := by
  norm_num [score_to_color_hex, clamp01, lerp, pyInt, hex2, hexDigit, hexDigits]; decide

example : score_to_color_hex_rounded (27 / 200) = "#ed3a00" := by
  norm_num [score_to_color_hex_rounded, clamp01, lerp, round_eq, hex2, hexDigit, hexDigits]; decide

example : binStartMin 7 23 59 = 1435 := by decide

example : keptIdx [some 0, some 0, some 0, some 0] 3 3 = [0, 1, 2] := by decide

/-! ## Ranking lemmas -/

lemma getD_isSome_lt {s : List PVal} {i : ℕ} (h : (s.getD i none).isSome) :
    i < s.length := by
  by_contra hn
  rw [List.getD_eq_default _ _ (le_of_not_lt hn)] at h
  simp at h

lemma precFirstB_iff {asc : Bool} {s : List PVal} {j i : ℕ} :
    precFirstB asc s j i = true ↔
      ∃ sj si, s.getD j none = some sj ∧ s.getD i none = some si ∧
        (cmpLtB asc sj si = true ∨ (sj = si ∧ j < i)) := by
  unfold precFirstB
  cases hj : s.getD j none <;> cases hi : s.getD i none <;> simp

lemma precFirstB_irrefl (asc : Bool) (s : List PVal) (i : ℕ) :
    precFirstB asc s i i = false := by
  unfold precFirstB
  cases hi : s.getD i none with
  | none => rfl
  | some si =>
    simp only [Bool.or_eq_false_iff, Bool.and_eq_false_iff]
    constructor
    · cases asc <;> simp [cmpLtB]
    · right; simp

lemma cmpLtB_trans {asc : Bool} {a b c : ℚ} (h1 : cmpLtB asc a b = true)
    (h2 : cmpLtB asc b c = true) : cmpLtB asc a c = true := by
  cases asc <;> simp [cmpLtB] at * <;> linarith

lemma cmpLtB_irrefl_of_eq {asc : Bool} {a b : ℚ} (h : a = b) :
    cmpLtB asc a b = false := by
  cases asc <;> simp [cmpLtB, h]

lemma precFirstB_trans {asc : Bool} {s : List PVal} {a b c : ℕ}
    (h1 : precFirstB asc s a b = true) (h2 : precFirstB asc s b c = true) :
    precFirstB asc s a c = true := by
  rcases precFirstB_iff.mp h1 with ⟨sa, sb, ha, hb, hab⟩
  rcases precFirstB_iff.mp h2 with ⟨sb2, sc, hb2, hc, hbc⟩
  rw [hb] at hb2
  have hsb : sb2 = sb := by injection hb2.symm
  subst hsb
  refine precFirstB_iff.mpr ⟨sa, sc, ha, hc, ?_⟩
  rcases hab with hlt1 | ⟨he1, hlt1⟩
  · rcases hbc with hlt2 | ⟨he2, _⟩
    · exact Or.inl (cmpLtB_trans hlt1 hlt2)
    · exact Or.inl (he2 ▸ hlt1)
  · rcases hbc with hlt2 | ⟨he2, hlt2⟩
    · exact Or.inl (he1 ▸ hlt2)
    · exact Or.inr ⟨he1.trans he2, hlt1.trans hlt2⟩

lemma precFirstB_total {asc : Bool} {s : List PVal} {i j : ℕ} {si sj : ℚ}
    (hi : s.getD i none = some si) (hj : s.getD j none = some sj)
    (hne : i ≠ j) :
    precFirstB asc s i j = true ∨ precFirstB asc s j i = true := by
  rcases lt_trichotomy si sj with h | h | h
  · cases asc
    · exact Or.inr (precFirstB_iff.mpr ⟨sj, si, hj, hi, Or.inl (by simp [cmpLtB, h])⟩)
    · exact Or.inl (precFirstB_iff.mpr ⟨si, sj, hi, hj, Or.inl (by simp [cmpLtB, h])⟩)
  · rcases Nat.lt_or_ge i j with hij | hij
    · exact Or.inl (precFirstB_iff.mpr ⟨si, sj, hi, hj, Or.inr ⟨h, hij⟩⟩)
    · have : j < i := lt_of_le_of_ne hij (Ne.symm hne)
      exact Or.inr (precFirstB_iff.mpr ⟨sj, si, hj, hi, Or.inr ⟨h.symm, this⟩⟩)
  · cases asc
    · exact Or.inl (precFirstB_iff.mpr ⟨si, sj, hi, hj, Or.inl (by simp [cmpLtB, h])⟩)
    · exact Or.inr (precFirstB_iff.mpr ⟨sj, si, hj, hi, Or.inl (by simp [cmpLtB, h])⟩)

lemma rankCount_lt_of_prec {asc : Bool} {s : List PVal} {i j : ℕ}
    (hij : precFirstB asc s i j = true) :
    rankCount asc s i < rankCount asc s j := by
  rcases precFirstB_iff.mp hij with ⟨si, sj, hi, hj, _⟩
  have hilen : i < s.length := getD_isSome_lt (by rw [hi]; rfl)
  have hsub : insert i ((Finset.range s.length).filter
      fun k => precFirstB asc s k i = true) ⊆
      (Finset.range s.length).filter fun k => precFirstB asc s k j = true := by
    intro k hk
    rcases Finset.mem_insert.mp hk with hk | hk
    · subst hk
      exact Finset.mem_filter.mpr ⟨Finset.mem_range.mpr hilen, hij⟩
    · rcases Finset.mem_filter.mp hk with ⟨hkr, hki⟩
      exact Finset.mem_filter.mpr ⟨hkr, precFirstB_trans hki hij⟩
  have hnotmem : i ∉ (Finset.range s.length).filter
      fun k => precFirstB asc s k i = true := by
    intro hmem
    rcases Finset.mem_filter.mp hmem with ⟨_, hbad⟩
    rw [precFirstB_irrefl] at hbad
    exact Bool.false_ne_true hbad
  have := Finset.card_le_card hsub
  rw [Finset.card_insert_of_not_mem hnotmem] at this
  unfold rankCount
  omega

lemma card_rankLe_le (asc : Bool) (s : List PVal) (G : ℕ) :
    (((Finset.range s.length).filter
      fun i => rankLe (rankFirst asc s i) G = true)).card ≤ G := by
  classical
  refine le_trans
    (Finset.card_le_card_of_injOn (fun i => rankCount asc s i) ?_ ?_)
    (le_of_eq (Finset.card_range G))
  · intro i hi
    rcases Finset.mem_filter.mp hi with ⟨_, hkeep⟩
    unfold rankFirst at hkeep
    split at hkeep
    · simp only [rankLe] at hkeep
      have : 1 + rankCount asc s i ≤ G := of_decide_eq_true hkeep
      show rankCount asc s i ∈ Finset.range G
      exact Finset.mem_range.mpr (by omega)
    · exact absurd hkeep (by simp [rankLe])
  · intro i hi j hj hfij
    by_contra hne
    have hvi : (s.getD i none).isSome := by
      rcases Finset.mem_filter.mp hi with ⟨_, hkeep⟩
      unfold rankFirst at hkeep
      split at hkeep
      · assumption
      · exact absurd hkeep (by simp [rankLe])
    have hvj : (s.getD j none).isSome := by
      rcases Finset.mem_filter.mp hj with ⟨_, hkeep⟩
      unfold rankFirst at hkeep
      split at hkeep
      · assumption
      · exact absurd hkeep (by simp [rankLe])
    rcases Option.isSome_iff_exists.mp hvi with ⟨si, hsi⟩
    rcases Option.isSome_iff_exists.mp hvj with ⟨sj, hsj⟩
    rcases @precFirstB_total asc s i j si sj hsi hsj hne with h | h
    · exact absurd hfij (Nat.ne_of_lt (rankCount_lt_of_prec h))
    · exact absurd hfij.symm (Nat.ne_of_lt (rankCount_lt_of_prec h))

lemma length_filter_range (n : ℕ) (p : ℕ → Bool) :
    ((List.range n).filter p).length =
      ((Finset.range n).filter fun i => p i = true).card := by
  induction n with
  | zero => rfl
  | succ n ih =>
    rw [List.range_succ, List.filter_append, Finset.range_succ]
    by_cases h : p n = true
    · rw [Finset.filter_insert, if_pos h,
        Finset.card_insert_of_not_mem (by simp)]
      simp [h, ih]
    · rw [Finset.filter_insert, if_neg h]
      simp [List.filter_cons, h, ih]

/-- C2 claim.  For every WindowKey, after ranking score01 descending into
rank_good and ascending into rank_bad with first-seen tie-breaking and
keeping rows with rank_good <= win_good_n or rank_bad <= win_bad_n, the
number of retained WindowMetrics is at most win_good_n + win_bad_n, for
all inputs (including NaN scores) and all win_good_n, win_bad_n. -/
theorem claim_C2_selection_bounded (s : List PVal) (G B : ℕ) :
    (keptIdx s G B).length ≤ G + B := by
  classical
  have hre : keptIdx s G B = (List.range s.length).filter
      fun i => keepRow s G B i := rfl
  rw [hre, length_filter_range]
  have hsub : ((Finset.range s.length).filter fun i => keepRow s G B i = true) ⊆
      ((Finset.range s.length).filter fun i => rankLe (rankFirst false s i) G = true) ∪
      ((Finset.range s.length).filter fun i => rankLe (rankFirst true s i) B = true) := by
    intro i hi
    rcases Finset.mem_filter.mp hi with ⟨hir, hkeep⟩
    unfold keepRow rank_good rank_bad at hkeep
    rcases Bool.or_eq_true_iff.mp hkeep with h | h
    · exact Finset.mem_union_left _ (Finset.mem_filter.mpr ⟨hir, h⟩)
    · exact Finset.mem_union_right _ (Finset.mem_filter.mpr ⟨hir, h⟩)
  calc ((Finset.range s.length).filter fun i => keepRow s G B i = true).card
      ≤ _ := Finset.card_le_card hsub
    _ ≤ _ := Finset.card_union_le _ _
    _ ≤ G + B := add_le_add (card_rankLe_le false s G) (card_rankLe_le true s B)

lemma rankCount_add_of_nodup {s : List PVal} (hnd : s.Nodup)
    (hv : ∀ v ∈ s, v.isSome) {i : ℕ} (hi : i < s.length) :
    rankCount false s i + rankCount true s i = s.length - 1 := by
  classical
  have hval : ∀ j, j < s.length → ∃ sj, s.getD j none = some sj := by
    intro j hj
    have := hv (s.getD j none) (by
      rw [List.getD_eq_getElem s none hj]
      exact List.getElem_mem hj)
    exact Option.isSome_iff_exists.mp this
  have hinj : ∀ j k, j < s.length → k < s.length → j ≠ k →
      s.getD j none ≠ s.getD k none := by
    intro j k hj hk hne
    rw [List.getD_eq_getElem s none hj, List.getD_eq_getElem s none hk]
    exact fun hc => hne ((hnd.getElem_inj_iff).mp hc)
  have hdisj : Disjoint
      ((Finset.range s.length).filter fun j => precFirstB false s j i = true)
      ((Finset.range s.length).filter fun j => precFirstB true s j i = true) := by
    rw [Finset.disjoint_left]
    intro j hjA hjB
    rcases Finset.mem_filter.mp hjA with ⟨hjr, hA⟩
    rcases Finset.mem_filter.mp hjB with ⟨_, hB⟩
    rcases precFirstB_iff.mp hA with ⟨sj, si, hsj, hsi, hA2⟩
    rcases precFirstB_iff.mp hB with ⟨sj2, si2, hsj2, hsi2, hB2⟩
    rw [hsj] at hsj2
    rw [hsi] at hsi2
    have hsjeq : sj = sj2 := Option.some.inj hsj2
    have hsieq : si = si2 := Option.some.inj hsi2
    subst hsjeq
    subst hsieq
    have hjne : j ≠ i := by
      intro hc
      subst hc
      rw [hsj] at hsi
      have heq : sj = si := Option.some.inj hsi
      rcases hA2 with hlt | ⟨_, hlt⟩
      · rw [cmpLtB_irrefl_of_eq heq] at hlt
        exact Bool.false_ne_true hlt
      · exact lt_irrefl j hlt
    have hne2 : sj ≠ si := by
      intro hc
      apply hinj j i (Finset.mem_range.mp hjr) hi hjne
      rw [hsj, hsi, hc]
    rcases hA2 with hlt1 | ⟨he, _⟩
    · rcases hB2 with hlt2 | ⟨he, _⟩
      · have h1 : si < sj := by simpa [cmpLtB] using hlt1
        have h2 : sj < si := by simpa [cmpLtB] using hlt2
        exact absurd (lt_trans h1 h2) (lt_irrefl si)
      · exact hne2 he
    · exact hne2 he
  have hunion :
      ((Finset.range s.length).filter fun j => precFirstB false s j i = true) ∪
      ((Finset.range s.length).filter fun j => precFirstB true s j i = true) =
      (Finset.range s.length).erase i := by
    apply Finset.ext
    intro j
    constructor
    · intro hj
      rcases Finset.mem_union.mp hj with hj | hj <;>
        rcases Finset.mem_filter.mp hj with ⟨hjr, hp⟩ <;>
        refine Finset.mem_erase.mpr ⟨?_, hjr⟩ <;>
        intro hc <;> subst hc <;>
        rw [precFirstB_irrefl] at hp <;> exact Bool.false_ne_true hp
    · intro hj
      rcases Finset.mem_erase.mp hj with ⟨hjne, hjr⟩
      have hjlen := Finset.mem_range.mp hjr
      rcases hval j hjlen with ⟨sj, hsj⟩
      rcases hval i hi with ⟨si, hsi⟩
      have hne2 : sj ≠ si := by
        intro hc
        apply hinj j i hjlen hi hjne
        rw [hsj, hsi, hc]
      rcases lt_trichotomy sj si with h | h | h
      · refine Finset.mem_union_right _ (Finset.mem_filter.mpr ⟨hjr, ?_⟩)
        exact precFirstB_iff.mpr ⟨sj, si, hsj, hsi, Or.inl (by simp [cmpLtB, h])⟩
      · exact absurd h hne2
      · refine Finset.mem_union_left _ (Finset.mem_filter.mpr ⟨hjr, ?_⟩)
        exact precFirstB_iff.mpr ⟨sj, si, hsj, hsi, Or.inl (by simp [cmpLtB, h])⟩
  have hcard := congrArg Finset.card hunion
  rw [Finset.card_union_of_disjoint hdisj, Finset.card_erase_of_mem
    (Finset.mem_range.mpr hi), Finset.card_range] at hcard
  exact hcard

/-- C7 counterexample.  A window of four zones whose score01 values are
all tied (as happens when every metric is degenerate in the window) with
win_good_n = win_bad_n = 3: the window has 4 < 6 zones, yet the fourth
zone has rank_good = 4 > 3 and rank_bad = 4 > 3 and is dropped, so the
per-window selection does not keep all of the window's zones. -/
theorem claim_C7_counterexample :
    ([some 0, some 0, some 0, some 0] : List PVal).length < 3 + 3 ∧
    rank_good [some 0, some 0, some 0, some 0] 3 = some 4 ∧
    rank_bad [some 0, some 0, some 0, some 0] 3 = some 4 ∧
    keptIdx [some 0, some 0, some 0, some 0] 3 3 ≠
      List.range ([some 0, some 0, some 0, some 0] : List PVal).length := by
  refine ⟨by decide, by decide, by decide, by decide⟩

/-- C7 amended claim.  For every window with fewer than
win_good_n + win_bad_n zones whose score01 values are pairwise distinct
(and non-NaN), the per-window top/bottom selection keeps all of the
window's zones; with tied scores the first-seen tie-breaking can push
both ranks of a late tied row past both cutoffs, so distinctness is
required. -/
theorem claim_C7_all_kept_of_distinct (s : List PVal) (G B : ℕ)
    (hlen : s.length < G + B) (hnd : s.Nodup) (hv : ∀ v ∈ s, v.isSome) :
    keptIdx s G B = List.range s.length := by
  unfold keptIdx
  rw [List.filter_eq_self]
  intro i hi
  have hilen : i < s.length := List.mem_range.mp hi
  have hval : (s.getD i none).isSome := by
    apply hv
    rw [List.getD_eq_getElem s none hilen]
    exact List.getElem_mem hilen
  have hsum := rankCount_add_of_nodup hnd hv hilen
  unfold keepRow rank_good rank_bad rankFirst
  rw [if_pos hval, if_pos hval]
  unfold rankLe
  rcases le_or_lt (1 + rankCount false s i) G with h | h
  · exact Bool.or_eq_true_iff.mpr (Or.inl (decide_eq_true h))
  · refine Bool.or_eq_true_iff.mpr (Or.inr (decide_eq_true ?_))
    omega

/-- Witness for C7 amended claim at a concrete window: three distinct
scores, win_good_n = win_bad_n = 2, all three rows kept. -/
theorem claim_C7_all_kept_of_distinct_witness :
    keptIdx [some 3, some 1, some 2] 2 2 =
      List.range ([some 3, some 1, some 2] : List PVal).length :=
  claim_C7_all_kept_of_distinct [some 3, some 1, some 2] 2 2
    (by decide) (by decide) (by decide)

/-! ## Frame assembly lemmas -/

lemma buildFrameLoop_markers_eq (env : GeoEnv) (G : ℕ) :
    ∀ l : List (ScoredRow × Option ℕ),
      (buildFrameLoop env G l).markers =
        (l.filter fun p => env.hasPolygon p.1.zid && env.hasCentroid p.1.zid).map
          fun p => mkMarker p.1 p.2 G := by
  intro l
  induction l with
  | nil => rfl
  | cons hd tl ih =>
    obtain ⟨r, rg⟩ := hd
    by_cases hp : env.hasPolygon r.zid = true
    · by_cases hc : env.hasCentroid r.zid = true
      · simp [buildFrameLoop, hp, hc, List.filter_cons, ih]
      · simp [buildFrameLoop, hp, Bool.eq_false_iff.mpr hc, List.filter_cons, ih,
          Bool.and_eq_true]
    · simp [buildFrameLoop, Bool.eq_false_iff.mpr hp, List.filter_cons, ih,
        Bool.and_eq_true]

lemma buildFrameLoop_zid_sublist (env : GeoEnv) (G : ℕ) :
    ∀ l : List (ScoredRow × Option ℕ),
      ((buildFrameLoop env G l).markers.map Marker.zid).Sublist
        ((buildFrameLoop env G l).features.map Feature.zid) := by
  intro l
  induction l with
  | nil => exact List.Sublist.refl _
  | cons hd tl ih =>
    obtain ⟨r, rg⟩ := hd
    by_cases hp : env.hasPolygon r.zid = true
    · by_cases hc : env.hasCentroid r.zid = true
      · simp only [buildFrameLoop, hp, hc, if_true]
        exact List.Sublist.cons₂ _ ih
      · simp only [buildFrameLoop, hp, Bool.eq_false_iff.mpr hc, if_true, if_false]
        exact List.Sublist.cons _ ih
    · simp only [buildFrameLoop, Bool.eq_false_iff.mpr hp, if_false]
      exact ih

/-- C10 claim.  In the JSON pipeline's frame loop, for every frame the
zones carrying a marker are (in order) a sub-sequence of the zones
carrying a polygon feature: a marker is emitted only in an iteration
whose polygon passed the geometry checks, so every frame's marker count
is at most its polygon feature count. -/
theorem claim_C10_markers_within_features (env : GeoEnv)
    (rows : List ScoredRow) (G B : ℕ) :
    ((buildFrame env rows G B).markers.map Marker.zid).Sublist
      ((buildFrame env rows G B).features.map Feature.zid) ∧
    (buildFrame env rows G B).markers.length ≤
      (buildFrame env rows G B).features.length := by
  have h := buildFrameLoop_zid_sublist env G (dfPolyRows rows G B)
  refine ⟨h, ?_⟩
  have := h.length_le
  simpa using this

/-- C1 counterexample.  In build_hotspots_json, with three shown zones
in one window (scores 3, 2, 1), win_good_n = win_bad_n = 1 and every
zone having a polygon and a non-empty centroid, the emitted frame has
markers only for zones 1 and 3: zone 2 is in shown_ids and has a
centroid, yet gets no marker, because the marker loop runs inside the
per-window top/bottom polygon selection.  This falsifies the claim that
a marker is built for every zone of shown_ids with a non-empty centroid
and that the per-window selection never bounds the marker output. -/
theorem claim_C1_counterexample :
    envAll.hasCentroid 2 = true ∧
    (2 : ℤ) ∈ c1Rows.map ScoredRow.zid ∧
    (buildFrame envAll c1Rows 1 1).markers.map Marker.zid = [1, 3] ∧
    (2 : ℤ) ∉ (buildFrame envAll c1Rows 1 1).markers.map Marker.zid := by
  refine ⟨rfl, by decide, by decide, by decide⟩

/-- C1 amended claim.  In build_hotspots_json, each frame's markers are
exactly the per-window-selected rows (df_poly) whose polygon passed the
geometry checks and whose centroid is non-empty, tagged GOOD iff the
row's per-window rank_good is within win_good_n — so the per-window
selection does bound the marker output, and the tag is the per-window
TOP/BOTTOM classification, not lifetime good_set membership.  In the
folium builder (tlc_hvfhs_hotspot_builder.py), static markers are
instead drawn once per shown_ids zone with a centroid, tagged by overall
good_set membership. -/
theorem claim_C1_markers_follow_selection (env : GeoEnv)
    (rows : List ScoredRow) (G B : ℕ) (shown good_set : List ℤ) :
    (buildFrame env rows G B).markers =
      ((dfPolyRows rows G B).filter fun p =>
        env.hasPolygon p.1.zid && env.hasCentroid p.1.zid).map
          (fun p => mkMarker p.1 p.2 G) ∧
    staticMarkers env shown good_set =
      (shown.filter fun z => env.hasCentroid z).map
        fun z => (z, if z ∈ good_set then "GOOD" else "BAD") := by
  constructor
  · exact buildFrameLoop_markers_eq env G (dfPolyRows rows G B)
  · induction shown with
    | nil => rfl
    | cons z tl ih =>
      by_cases hc : env.hasCentroid z = true
      · simp [staticMarkers, hc, List.filter_cons, ih, staticMarkers] at ih ⊢
        exact ih
      · simp [staticMarkers, Bool.eq_false_iff.mpr hc, List.filter_cons,
          staticMarkers] at ih ⊢
        exact ih

/-! ## Rating lemmas (Python round semantics) -/

lemma floor_le_pyRound (q : ℚ) : ⌊q⌋ ≤ pyRound q := by
  unfold pyRound
  split
  · split
    · exact le_refl _
    · exact le_of_lt (lt_add_one _)
  · rw [round_eq]
    exact Int.floor_mono (by linarith)

lemma pyRound_le_floor_add_one (q : ℚ) : pyRound q ≤ ⌊q⌋ + 1 := by
  unfold pyRound
  split
  · split
    · exact le_of_lt (lt_add_one _)
    · exact le_refl _
  · rw [round_eq]
    calc ⌊q + 1 / 2⌋ ≤ ⌊q + 1⌋ := Int.floor_mono (by linarith)
      _ = ⌊q⌋ + 1 := Int.floor_add_one q

lemma pyRound_eq_floor_of_lt_half {q : ℚ} (h : q - ⌊q⌋ < 1 / 2) :
    pyRound q = ⌊q⌋ := by
  unfold pyRound
  rw [if_neg (by intro hc; rw [hc] at h; exact lt_irrefl _ h), round_eq]
  have h1 : (⌊q⌋ : ℚ) ≤ q + 1 / 2 := by
    have := Int.floor_le q
    linarith
  have h2 : q + 1 / 2 < (⌊q⌋ : ℚ) + 1 := by linarith
  rw [Int.floor_eq_iff]
  constructor
  · exact_mod_cast h1
  · exact_mod_cast h2

lemma pyRound_eq_floor_add_one_of_gt_half {q : ℚ} (h : 1 / 2 < q - ⌊q⌋) :
    pyRound q = ⌊q⌋ + 1 := by
  unfold pyRound
  rw [if_neg (by intro hc; rw [hc] at h; exact lt_irrefl _ h), round_eq]
  have hup := Int.lt_floor_add_one q
  have h1 : ((⌊q⌋ + 1 : ℤ) : ℚ) ≤ q + 1 / 2 := by push_cast; linarith
  have h2 : q + 1 / 2 < ((⌊q⌋ + 1 : ℤ) : ℚ) + 1 := by push_cast; linarith
  rw [Int.floor_eq_iff]
  exact ⟨h1, h2⟩

lemma pyRound_tie {q : ℚ} (h : q - ⌊q⌋ = 1 / 2) :
    pyRound q = if 2 ∣ ⌊q⌋ then ⌊q⌋ else ⌊q⌋ + 1 := if_pos h

lemma pyRound_mono {x y : ℚ} (hxy : x ≤ y) : pyRound x ≤ pyRound y := by
  rcases lt_or_eq_of_le (Int.floor_mono hxy) with hf | hf
  · calc pyRound x ≤ ⌊x⌋ + 1 := pyRound_le_floor_add_one x
      _ ≤ ⌊y⌋ := by omega
      _ ≤ pyRound y := floor_le_pyRound y
  · have hfr : x - (⌊x⌋ : ℚ) ≤ y - (⌊y⌋ : ℚ) := by
      rw [← hf]
      linarith
    rcases lt_trichotomy (x - (⌊x⌋ : ℚ)) (1 / 2 : ℚ) with h1 | h1 | h1
    · rw [pyRound_eq_floor_of_lt_half h1, hf]
      exact floor_le_pyRound y
    · rcases eq_or_lt_of_le (h1 ▸ hfr) with h2 | h2
      · rw [pyRound_tie h1, pyRound_tie h2.symm, hf]
      · rw [pyRound_eq_floor_add_one_of_gt_half h2]
        calc pyRound x ≤ ⌊x⌋ + 1 := pyRound_le_floor_add_one x
          _ = ⌊y⌋ + 1 := by omega
    · rw [pyRound_eq_floor_add_one_of_gt_half h1,
        pyRound_eq_floor_add_one_of_gt_half (lt_of_lt_of_le h1 hfr), hf]

lemma clamp01_nonneg (q : ℚ) : 0 ≤ clamp01 q := le_max_left 0 _

lemma clamp01_le_one (q : ℚ) : clamp01 q ≤ 1 :=
  max_le (by norm_num) (min_le_left 1 q)

lemma clamp01_mono {x y : ℚ} (h : x ≤ y) : clamp01 x ≤ clamp01 y :=
  max_le_max (le_refl 0) (min_le_min (le_refl 1) h)

/-- C3 claim.  The rating function returns the Python rounding of
1 + 99 * clamp(score01, 0, 1); its result is always an integer in
[1, 100], and it is monotonically non-decreasing in score01. -/
theorem claim_C3_rating_range_mono (x y : ℚ) (hxy : x ≤ y) :
    score_to_rating_1_100 x = pyRound (1 + 99 * clamp01 x) ∧
    1 ≤ score_to_rating_1_100 x ∧ score_to_rating_1_100 x ≤ 100 ∧
    score_to_rating_1_100 x ≤ score_to_rating_1_100 y := by
  have hmono : ∀ a b : ℚ, a ≤ b →
      score_to_rating_1_100 a ≤ score_to_rating_1_100 b := by
    intro a b hab
    apply pyRound_mono
    have := clamp01_mono hab
    linarith
  have hc0 := clamp01_nonneg x
  have hc1 := clamp01_le_one x
  have hp1 : pyRound 1 = 1 := by norm_num [pyRound, round_eq]
  have hp100 : pyRound (100 : ℚ) = 100 := by norm_num [pyRound, round_eq]
  refine ⟨rfl, ?_, ?_, hmono x y hxy⟩
  · rw [← hp1]
    exact pyRound_mono (by linarith)
  · rw [show (100 : ℤ) = pyRound (100 : ℚ) from hp100.symm]
    exact pyRound_mono (by linarith)

/-- Witness for C3 at x = 0, y = 1. -/
theorem claim_C3_rating_range_mono_witness :
    score_to_rating_1_100 0 = pyRound (1 + 99 * clamp01 0) ∧
    1 ≤ score_to_rating_1_100 0 ∧ score_to_rating_1_100 0 ≤ 100 ∧
    score_to_rating_1_100 0 ≤ score_to_rating_1_100 1 :=
  claim_C3_rating_range_mono 0 1 (by norm_num)

/-! ## Bin width coercion and temporal binning -/

/-- C5 counterexample.  The builder coerces a non-positive bin_minutes
with max(1, .), so bin_minutes = 0 becomes 1, not the default 20, and
binning with width 1 differs from binning with width 20 (e.g. at
minute 25 of hour 0). -/
theorem claim_C5_counterexample :
    coerce_bin_minutes 0 = 1 ∧ coerce_bin_minutes 0 ≠ 20 ∧
    binStartMin 1 0 25 = 25 ∧ binStartMin 20 0 25 = 20 ∧
    binStartMin 1 0 25 ≠ binStartMin 20 0 25 := by
  refine ⟨?_, ?_, by decide, by decide, by decide⟩
  · show max 1 0 = 1
    norm_num
  · show max 1 0 ≠ 20
    norm_num

/-- C5 amended claim.  The builder entry points coerce every
non-positive bin_minutes to 1 (max(1, bin_minutes)) before any binning
— not to the default 20 — so aggregation then behaves exactly like
bin_minutes = 1, whose bin-start-minute is the raw minute of day
itself; build_hotspots_json applies no coercion at all. -/
theorem claim_C5_nonpositive_coerced_to_one (b : ℤ) (hb : b ≤ 0) :
    coerce_bin_minutes b = 1 ∧
    ∀ h m : ℕ, binStartMin 1 h m = h * 60 + m := by
  constructor
  · exact max_eq_left (hb.trans (by norm_num))
  · intro h m
    simp [binStartMin]

/-- Witness for C5 amended claim at bin_minutes = -5. -/
theorem claim_C5_nonpositive_coerced_to_one_witness :
    coerce_bin_minutes (-5) = 1 ∧
    ∀ h m : ℕ, binStartMin 1 h m = h * 60 + m :=
  claim_C5_nonpositive_coerced_to_one (-5) (by norm_num)

/-- C6 counterexample.  Two failures of the claim.  SQL builders: for
bin_minutes = 7 (a positive width the CLI accepts) at 23:59 the
bin-start-minute is 1435, which exceeds 1440 - 7 = 1433, so the claimed
range [0, 1440 - bin_minutes] is wrong for widths not dividing 1440.
Package copy: its bin key hour * 60 + (minute // bin) * bin is not even
the floor formula — at bin = 7, 01:03 it yields 60 where
floor(63/7)*7 = 63, and 60 is not a multiple of 7 — and its range claim
fails even for a width dividing 1440: at bin = 16 (1440 = 16 * 90),
23:59 yields 1428 > 1440 - 16 = 1424. -/
theorem claim_C6_counterexample :
    0 < 7 ∧ (23 : ℕ) ≤ 23 ∧ (59 : ℕ) ≤ 59 ∧
    binStartMin 7 23 59 = 1435 ∧ ¬(binStartMin 7 23 59 ≤ 1440 - 7) ∧
    minute_of_day 7 1 3 = 60 ∧ ((1 * 60 + 3) / 7) * 7 = 63 ∧
    minute_of_day 7 1 3 ≠ ((1 * 60 + 3) / 7) * 7 ∧
    ¬(7 ∣ minute_of_day 7 1 3) ∧
    (16 ∣ 1440) ∧ minute_of_day 16 23 59 = 1428 ∧
    ¬(minute_of_day 16 23 59 ≤ 1440 - 16) := by
  refine ⟨by decide, by decide, by decide, by decide, by decide, by decide,
    by decide, by decide, by decide, by decide, by decide, by decide⟩

/-- C6 amended claim.  For every timestamp with hour in [0, 23], minute
in [0, 59] and every bin width > 0: in the two SQL builders
(build_hotspots.py and tlc_hvfhs_hotspot_builder.py) the bin-start-minute
equals floor((hour * 60 + minute) / bin_minutes) * bin_minutes, is a
multiple of bin_minutes, at most the minute-of-day (hence at most 1439),
and lies in [0, 1440 - bin_minutes] when bin_minutes divides 1440.  The
package copy instead computes hour * 60 + floor(minute / bin_minutes) *
bin_minutes, which is also at most the minute-of-day (hence in
[0, 1439]) but agrees with the floor formula — and hence inherits its
properties, including the [0, 1440 - bin_minutes] range — exactly when
bin_minutes divides 60, as the default 20 does; for other widths it is
neither the floor formula nor a multiple of bin_minutes, and its range
claim can fail even when bin_minutes divides 1440 (see the
counterexample). -/
theorem claim_C6_bin_start_range (bin h m : ℕ) (hbin : 0 < bin)
    (hh : h ≤ 23) (hm : m ≤ 59) :
    binStartMin bin h m = ((h * 60 + m) / bin) * bin ∧
    bin ∣ binStartMin bin h m ∧
    binStartMin bin h m ≤ h * 60 + m ∧
    h * 60 + m ≤ 1439 ∧
    (bin ∣ 1440 → binStartMin bin h m ≤ 1440 - bin) ∧
    minute_of_day bin h m ≤ h * 60 + m ∧
    (bin ∣ 60 → minute_of_day bin h m = binStartMin bin h m) := by
  refine ⟨rfl, dvd_mul_left bin _, Nat.div_mul_le_self _ _, by omega, ?_, ?_, ?_⟩
  · intro hdvd
    obtain ⟨k, hk⟩ := hdvd
    have hle : ((h * 60 + m) / bin) * bin ≤ h * 60 + m := Nat.div_mul_le_self _ _
    have hqk : (h * 60 + m) / bin < k := by
      by_contra hge
      push_neg at hge
      have hmul : bin * k ≤ ((h * 60 + m) / bin) * bin := by
        calc bin * k ≤ bin * ((h * 60 + m) / bin) := Nat.mul_le_mul_left bin hge
          _ = ((h * 60 + m) / bin) * bin := Nat.mul_comm _ _
      omega
    have hsucc : ((h * 60 + m) / bin + 1) * bin ≤ k * bin :=
      Nat.mul_le_mul_right bin hqk
    have hexp : ((h * 60 + m) / bin + 1) * bin = ((h * 60 + m) / bin) * bin + bin := by
      ring
    have hkb : k * bin = 1440 := by
      rw [Nat.mul_comm]
      omega
    unfold binStartMin
    omega
  · exact Nat.add_le_add_left (Nat.div_mul_le_self m bin) _
  · intro hdvd60
    obtain ⟨k, hk⟩ := hdvd60
    have h1 : h * 60 + m = m + bin * (h * k) := by
      rw [hk]
      ring
    have h2 : (m + bin * (h * k)) / bin = m / bin + h * k :=
      Nat.add_mul_div_left m (h * k) hbin
    have h3 : h * k * bin = h * 60 := by
      rw [hk]
      ring
    calc minute_of_day bin h m = h * 60 + (m / bin) * bin := rfl
      _ = h * k * bin + (m / bin) * bin := by rw [h3]
      _ = (m / bin + h * k) * bin := by ring
      _ = ((m + bin * (h * k)) / bin) * bin := by rw [h2]
      _ = ((h * 60 + m) / bin) * bin := by rw [← h1]
      _ = binStartMin bin h m := rfl

/-- Witness for C6 amended claim at the default bin width 20 at 23:59. -/
theorem claim_C6_bin_start_range_witness :
    binStartMin 20 23 59 = ((23 * 60 + 59) / 20) * 20 ∧
    20 ∣ binStartMin 20 23 59 ∧
    binStartMin 20 23 59 ≤ 23 * 60 + 59 ∧
    23 * 60 + 59 ≤ 1439 ∧
    (20 ∣ 1440 → binStartMin 20 23 59 ≤ 1440 - 20) ∧
    minute_of_day 20 23 59 ≤ 23 * 60 + 59 ∧
    (20 ∣ 60 → minute_of_day 20 23 59 = binStartMin 20 23 59) :=
  claim_C6_bin_start_range 20 23 59 (by decide) (by decide) (by decide)

/-! ## Color gradient -/

lemma hexDigit_mem (n : ℕ) : hexDigit n ∈ hexDigits := by
  unfold hexDigit
  by_cases h : n < hexDigits.length
  · rw [List.getD_eq_getElem _ _ h]
    exact List.getElem_mem h
  · rw [List.getD_eq_default _ _ (le_of_not_lt h)]
    decide

lemma isHexColorB_concat (a b c : ℕ) :
    isHexColorB ("#" ++ hex2 a ++ hex2 b ++ hex2 c) = true := by
  have hdata : ("#" ++ hex2 a ++ hex2 b ++ hex2 c).data =
      '#' :: [hexDigit (a / 16 % 16), hexDigit (a % 16),
              hexDigit (b / 16 % 16), hexDigit (b % 16),
              hexDigit (c / 16 % 16), hexDigit (c % 16)] := by
    simp [hex2, String.data_append]
  unfold isHexColorB
  rw [hdata]
  simp [hexDigit_mem]

/-- C9 counterexample.  At score01 = 27/200 (= 0.135) the red channel of
the gradient is 236.75; the source truncates it to 236 (hex ec) while
nearest-integer rounding gives 237 (hex ed) — and 236.75 is not a tie,
so every nearest-integer rounding rule disagrees with the code there. -/
theorem claim_C9_counterexample :
    score_to_color_hex (27 / 200) = "#ec3a00" ∧
    score_to_color_hex_rounded (27 / 200) = "#ed3a00" ∧
    score_to_color_hex (27 / 200) ≠ score_to_color_hex_rounded (27 / 200) := by
  have h1 : score_to_color_hex (27 / 200) = "#ec3a00" := by
    norm_num [score_to_color_hex, clamp01, lerp, pyInt, hex2, hexDigit, hexDigits]
    decide
  have h2 : score_to_color_hex_rounded (27 / 200) = "#ed3a00" := by
    norm_num [score_to_color_hex_rounded, clamp01, lerp, round_eq, hex2,
      hexDigit, hexDigits]
    decide
  refine ⟨h1, h2, ?_⟩
  rw [h1, h2]
  decide

/-- C9 amended claim.  For every real score01, the color function clamps
to [0, 1] and evaluates the red-yellow-green piecewise-linear gradient
with each channel truncated by Python int() (not rounded to nearest);
the output always matches the lowercase zero-padded pattern
hash-[0-9a-f]x6, and the anchor scores 0, 0.5 and 1 still map to
the colors hex e60000, hex ffd700 and hex 00b050. -/
theorem claim_C9_color_shape_anchors (s : ℚ) :
    isHexColorB (score_to_color_hex s) = true ∧
    score_to_color_hex 0 = "#e60000" ∧
    score_to_color_hex (1 / 2) = "#ffd700" ∧
    score_to_color_hex 1 = "#00b050" := by
  refine ⟨?_, ?_, ?_, ?_⟩
  · simp only [score_to_color_hex]
    by_cases h : clamp01 s ≤ 1 / 2
    · rw [if_pos h]
      exact isHexColorB_concat _ _ _
    · rw [if_neg h]
      exact isHexColorB_concat _ _ _
  · norm_num [score_to_color_hex, clamp01, lerp, pyInt, hex2, hexDigit, hexDigits]
    decide
  · norm_num [score_to_color_hex, clamp01, lerp, pyInt, hex2, hexDigit, hexDigits]
    decide
  · norm_num [score_to_color_hex, clamp01, lerp, pyInt, hex2, hexDigit, hexDigits]
    decide

/-! ## Degenerate and NaN normalization -/

/-- C4 counterexample.  In a window where avg_driver_pay is 1.0, 2.0 and
NULL across the three zones (max > min with a null present), minmax maps
the null entry to NaN, and that NaN propagates into the zone's score01:
the normalization does produce a NaN that reaches score01. -/
theorem claim_C4_counterexample :
    minmax [some 1, some 2, none] = [some 0, some 1, none] ∧
    (add_window_scores c4Rows).map ScoredRow.score01 =
      [some 0, some (3 / 5), none] ∧
    none ∈ (add_window_scores c4Rows).map ScoredRow.score01 := by
  have h1 : minmax [some 1, some 2, none] = [some 0, some 1, none] := by
    norm_num [minmax, listMin, listMax, omin, omax]
  have h2 : (add_window_scores c4Rows).map ScoredRow.score01 =
      [some 0, some (3 / 5), none] := by
    norm_num [add_window_scores, c4Rows, minmax, listMin, listMax, omin, omax,
      pMul, pAdd, List.range_succ, winRow0]
  refine ⟨h1, h2, ?_⟩
  rw [h2]
  decide

/-- C4 amended claim.  If in one window a metric's maximum equals its
minimum, or all its values are null (equivalently: its null-skipping min
and max coincide, possibly both NaN), every zone's normalized value in
that window is exactly 0, with no error or division by zero.  However,
when a metric mixes null and differing non-null values, the null rows'
normalized values are NaN and their score01 is NaN (see the
counterexample); downstream, Python's two-argument min/max clamp a NaN
score to 1, so the NaN surfaces as rating 100 and the top-end green
rather than an error. -/
theorem claim_C4_degenerate_minmax_zero (l : List PVal)
    (hdeg : listMin l = listMax l) :
    minmax l = l.map (fun _ => some 0) ∧
    score_to_rating_nan none = 100 ∧
    score_to_color_nan none = "#00b050" := by
  refine ⟨?_, ?_, ?_⟩
  · unfold minmax
    rw [← hdeg]
    cases hmin : listMin l with
    | none => rfl
    | some mn => simp
  · show score_to_rating_1_100 1 = 100
    norm_num [score_to_rating_1_100, pyRound, clamp01, round_eq]
  · show score_to_color_hex 1 = "#00b050"
    norm_num [score_to_color_hex, clamp01, lerp, pyInt, hex2, hexDigit, hexDigits]
    decide

/-- Witness for C4 amended claim on a window whose pay values are all
equal (5.0, NULL, 5.0), so min = max: all normalized values are 0. -/
theorem claim_C4_degenerate_minmax_zero_witness :
    minmax [some 5, none, some 5] =
      ([some 5, none, some 5] : List PVal).map (fun _ => some 0) ∧
    score_to_rating_nan none = 100 ∧
    score_to_color_nan none = "#00b050" :=
  claim_C4_degenerate_minmax_zero [some 5, none, some 5] (by decide)

/-! ## The concrete three-zone scenario -/

lemma rating_map_score01 (rows : List WinRow) :
    (add_window_scores rows).map ScoredRow.rating =
      ((add_window_scores rows).map ScoredRow.score01).map score_to_rating_nan := by
  unfold add_window_scores
  rw [List.map_map, List.map_map, List.map_map]
  rfl

/-- Shared evaluation of the spec's three-zone scenario. -/
lemma c8_eval :
    (add_window_scores c8Rows).map ScoredRow.vol_n =
      [some 0, some (1 / 2), some 1] ∧
    (add_window_scores c8Rows).map ScoredRow.pay_n = [some 0, some 0, some 0] ∧
    (add_window_scores c8Rows).map ScoredRow.tip_n = [some 0, some 0, some 0] ∧
    (add_window_scores c8Rows).map ScoredRow.score01 =
      [some 0, some (3 / 10), some (3 / 5)] ∧
    (add_window_scores c8Rows).map ScoredRow.rating = [1, 31, 60] := by
  have hs : (add_window_scores c8Rows).map ScoredRow.score01 =
      [some 0, some (3 / 10), some (3 / 5)] := by
    norm_num [add_window_scores, c8Rows, minmax, listMin, listMax, omin, omax,
      pMul, pAdd, List.range_succ, winRow0]
  have hr0 : score_to_rating_1_100 0 = 1 := by
    norm_num [score_to_rating_1_100, pyRound, clamp01, round_eq]
  have hr3 : score_to_rating_1_100 (3 / 10) = 31 := by
    norm_num [score_to_rating_1_100, pyRound, clamp01, round_eq]
  have hr6 : score_to_rating_1_100 (3 / 5) = 60 := by
    norm_num [score_to_rating_1_100, pyRound, clamp01, round_eq]
  refine ⟨?_, ?_, ?_, hs, ?_⟩
  · norm_num [add_window_scores, c8Rows, minmax, listMin, listMax, omin, omax,
      List.range_succ, winRow0]
  · norm_num [add_window_scores, c8Rows, minmax, listMin, listMax, omin, omax,
      List.range_succ, winRow0]
  · norm_num [add_window_scores, c8Rows, minmax, listMin, listMax, omin, omax,
      List.range_succ, winRow0]
  · rw [rating_map_score01, hs]
    simp [score_to_rating_nan, hr0, hr3, hr6]

/-- C8 counterexample.  In the three-zone scenario (pickups 10, 20, 30,
no pay/tip data) the middle zone's rating is 31, not 30: its score01 is
exactly 0.30, and round(1 + 99 * 0.30) = round(30.7) = 31 — so the
claimed rating list {1, 30, 60} is wrong. -/
theorem claim_C8_counterexample :
    (add_window_scores c8Rows).map ScoredRow.rating = [1, 31, 60] ∧
    (add_window_scores c8Rows).map ScoredRow.rating ≠ [1, 30, 60] := by
  have h := c8_eval.2.2.2.2
  refine ⟨h, ?_⟩
  rw [h]
  decide

/-- C8 amended claim.  For the window with three zones of pickup counts
10, 20, 30 and no valid pay or tip observations, the scoring stage
yields vol_n = 0.0, 0.5, 1.0, pay_n = tip_n = 0 for all three,
score01 = 0.0, 0.30, 0.60, and integer ratings 1, 31, 60 (the middle
rating is 31, since round(30.7) = 31, not 30). -/
theorem claim_C8_three_zone_scenario :
    (add_window_scores c8Rows).map ScoredRow.vol_n =
      [some 0, some (1 / 2), some 1] ∧
    (add_window_scores c8Rows).map ScoredRow.pay_n = [some 0, some 0, some 0] ∧
    (add_window_scores c8Rows).map ScoredRow.tip_n = [some 0, some 0, some 0] ∧
    (add_window_scores c8Rows).map ScoredRow.score01 =
      [some 0, some (3 / 10), some (3 / 5)] ∧
    (add_window_scores c8Rows).map ScoredRow.rating = [1, 31, 60] := c8_eval

end TLCHotspot
